import Mathlib

/-!
Verification of the ticket-to-manager routing engine (`routing.py`).

The engine is embedded shallowly:
* machine floats for GPS coordinates become exact rationals; the haversine
  great-circle formula (transcendental, floating point) is abstracted as an
  explicit function parameter `hav`, so every theorem holds for an arbitrary
  distance function;
* the persistent round-robin counter row is `Option Nat` (`none` = the row
  does not exist yet; reading it creates it with value 0, as in the code);
* Python exceptions (`offices[0]` on an empty list, `nearest.id` on `None`)
  become `Except.error`;
* Python's `list.sort` (Timsort, stable) becomes `List.insertionSort`, which
  is also stable for key-based relations; stability is proved, not assumed;
* in-place mutation of manager workloads and of the classification dict is
  returned explicitly in the output record.
-/

/-- Lowercasing as `str.lower` acts on the alphabets occurring in the data:
ASCII letters, the Cyrillic range А..Я, plus Ё, І, Ұ used by the alias table. -/
def pyLowerChar (c : Char) : Char :=
  if 'A' ≤ c ∧ c ≤ 'Z' then Char.ofNat (c.toNat + 32)
  else if 0x410 ≤ c.toNat ∧ c.toNat ≤ 0x42F then Char.ofNat (c.toNat + 32)
  else if c.toNat = 0x401 then Char.ofNat 0x451
  else if c.toNat = 0x406 then Char.ofNat 0x456
  else if c.toNat = 0x4B0 then Char.ofNat 0x4B1
  else c

/-- `str.lower`. -/
def pyLower (s : String) : String := ⟨s.data.map pyLowerChar⟩

/-- `str.strip`. -/
def pyStrip (s : String) : String :=
  ⟨((s.data.dropWhile Char.isWhitespace).reverse.dropWhile Char.isWhitespace).reverse⟩

/-- Contiguous-sublist test on character lists (Python's `in` on strings). -/
def listContains (needle : List Char) : List Char → Bool
  | [] => needle.isEmpty
  | c :: t => needle.isPrefixOf (c :: t) || listContains needle t

/-- Python's `needle in hay` on strings. -/
def pyIn (needle hay : String) : Bool := listContains needle.data hay.data

/-- Python's `round(q, 1)`: round to one decimal, ties to even (on the exact
rational value; the binary-float representation error is idealised away). -/
def pyRound1 (q : ℚ) : ℚ :=
  let x := 10 * q
  let f : Int := Rat.floor x
  let r := x - (f : ℚ)
  let n : Int :=
    if r < 1/2 then f else if 1/2 < r then f + 1 else if f % 2 = 0 then f else f + 1
  (n : ℚ) / 10

/-- Decimal rendering of a one-decimal rational, as Python prints such floats. -/
def fmtKm1 (q : ℚ) : String :=
  let k : Int := Rat.floor (q * 10)
  (if k < 0 then "-" else "") ++ toString (k.natAbs / 10) ++ "." ++ toString (k.natAbs % 10)

/-- Rendering of the optional fallback distance inside the reason f-string
(`None` when either coordinate pair is unresolvable). -/
def fmtOptKm : Option ℚ → String
  | none => "None"
  | some q => fmtKm1 q

/-- Value of the persistent `RoutingState.rr_counter` row (0 when the row is absent). -/
def rrVal (s : Option Nat) : Nat := s.getD 0

/-- `_get_rr_counter`: read the counter, creating the row with value 0 if absent.
Returns the value read and the (possibly initialised) row. -/
def getRR : Option Nat → Nat × Option Nat
  | none => (0, some 0)
  | some v => (v, some v)

/-- `_increment_rr_counter`: increment and persist the counter. -/
def incRR : Option Nat → Option Nat
  | none => some 1
  | some v => some (v + 1)

instance exceptDecEq {α β : Type} [DecidableEq α] [DecidableEq β] :
    DecidableEq (Except α β) := fun x y =>
  match x, y with
  | .ok a, .ok b =>
    if h : a = b then isTrue (by rw [h]) else isFalse (fun hc => by cases hc; exact h rfl)
  | .error a, .error b =>
    if h : a = b then isTrue (by rw [h]) else isFalse (fun hc => by cases hc; exact h rfl)
  | .ok _, .error _ => isFalse (fun hc => by cases hc)
  | .error _, .ok _ => isFalse (fun hc => by cases hc)

/-- `OFFICE_COORDS`: hardcoded GPS coordinates of the 15 offices. -/
def OFFICE_COORDS : List (String × ℚ × ℚ) :=
  [("Актау", (43.6520, 51.2100)),
   ("Актобе", (50.2797, 57.2074)),
   ("Алматы", (43.2389, 76.8897)),
   ("Астана", (51.1801, 71.4460)),
   ("Атырау", (47.1066, 51.9146)),
   ("Караганда", (49.8047, 73.1094)),
   ("Кокшетау", (53.2836, 69.3962)),
   ("Костанай", (53.2147, 63.6265)),
   ("Кызылорда", (44.8490, 65.5074)),
   ("Павлодар", (52.2867, 76.9677)),
   ("Петропавловск", (54.8749, 69.1586)),
   ("Тараз", (42.9002, 71.3784)),
   ("Уральск", (51.2337, 51.3697)),
   ("Усть-Каменогорск", (49.9488, 82.6271)),
   ("Шымкент", (42.3170, 69.5963))]

/-- `REGION_TO_OFFICE`: alias table from region/oblast strings to office names,
in source (dict insertion) order. -/
def REGION_TO_OFFICE : List (String × String) :=
  [("алматинская", "Алматы"),
   ("акмолинская", "Кокшетау"),
   ("актюбинская", "Актобе"),
   ("атырауская", "Атырау"),
   ("восточно-казахстанская", "Усть-Каменогорск"),
   ("жамбылская", "Тараз"),
   ("западно-казахстанская", "Уральск"),
   ("карагандинская", "Караганда"),
   ("костанайская", "Костанай"),
   ("кызылординская", "Кызылорда"),
   ("мангистауская", "Актау"),
   ("павлодарская", "Павлодар"),
   ("северо-казахстанская", "Петропавловск"),
   ("туркестанская", "Шымкент"),
   ("абайская", "Усть-Каменогорск"),
   ("жетісуская", "Алматы"),
   ("жетисуская", "Алматы"),
   ("ұлытауская", "Караганда"),
   ("улытауская", "Караганда"),
   ("г. алматы", "Алматы"),
   ("г. астана", "Астана"),
   ("г. шымкент", "Шымкент"),
   ("алматы", "Алматы"),
   ("астана", "Астана"),
   ("шымкент", "Шымкент"),
   ("юко", "Шымкент"),
   ("южно-казахстанская", "Шымкент"),
   ("семипалатинская", "Усть-Каменогорск"),
   ("вко", "Усть-Каменогорск"),
   ("mangystau", "Актау"),
   ("almaty", "Алматы"),
   ("astana", "Астана")]

/-- `Office` row: id, display name, optional stored coordinates. -/
structure Office where
  id : Int
  name : String
  latitude : Option ℚ
  longitude : Option ℚ
deriving DecidableEq, Repr

/-- `Manager` row. `skills` is nullable; `position` is nullable. -/
structure Manager where
  id : Int
  full_name : String
  position : Option String
  office_id : Option Int
  skills : Option (List String)
  current_workload : Int
deriving DecidableEq, Repr

/-- The fields of `Ticket` the engine reads. -/
structure Ticket where
  id : Int
  segment : Option String
  region : Option String
  city : Option String
deriving DecidableEq, Repr

/-- The `analysis` classification dict, restricted to the keys the engine reads
or writes (`none` = key absent or `None`). -/
structure Analysis where
  ticket_type : Option String
  language : Option String
  priority_score : Option Int
  latitude : Option ℚ
  longitude : Option ℚ
deriving DecidableEq, Repr

/-- The `reason` explanation dict built by `assign_ticket`. The `client_coords`
and `office_coords` keys exist only on the GPS branch, hence the outer `Option`. -/
structure Reason where
  nearest_office : Option String
  distance_km : Option ℚ
  filters_applied : List String
  candidates_initial : Nat
  candidates_after_filters : Nat
  top2_managers : List String
  chosen_by : String
  chosen_reason : String
  client_coords : Option (ℚ × ℚ)
  office_coords : Option (Option (ℚ × ℚ))
deriving DecidableEq, Repr

/-- Full observable outcome of one `assign_ticket` call: the returned triple
plus the post-state of the manager list, the counter row and the analysis dict. -/
structure AssignOut where
  manager : Option Manager
  office : Option Office
  reason : Reason
  managers : List Manager
  rrState : Option Nat
  analysis : Analysis
deriving DecidableEq, Repr

/-- The reason dict as initialised at the top of `assign_ticket`. -/
def initReason : Reason :=
  { nearest_office := none, distance_km := none, filters_applied := [],
    candidates_initial := 0, candidates_after_filters := 0, top2_managers := [],
    chosen_by := "round_robin", chosen_reason := "",
    client_coords := none, office_coords := none }

/-- The reason dict returned on the spam short-circuit. -/
def spamReason : Reason :=
  { initReason with chosen_by := "spam_filter",
                    chosen_reason := "Spam ticket — not assigned to any manager" }

/-- `_office_coords`: hardcoded coordinates first, stored DB coordinates as
fallback, else absent. -/
def officeCoords (o : Office) : Option (ℚ × ℚ) :=
  match OFFICE_COORDS.lookup o.name with
  | some c => some c
  | none =>
    match o.latitude, o.longitude with
    | some la, some lo => some (la, lo)
    | _, _ => none

/-- One iteration of the `find_nearest_office` loop: keep the running best
(office, distance) pair, replacing it only on a strictly smaller distance. -/
def nearestStep (hav : ℚ → ℚ → ℚ → ℚ → ℚ) (lat lon : ℚ) (acc : Option (Office × ℚ))
    (o : Office) : Option (Office × ℚ) :=
  match officeCoords o with
  | none => acc
  | some oc =>
    let d := hav lat lon oc.1 oc.2
    match acc with
    | none => some (o, d)
    | some (b, bd) => if d < bd then some (o, d) else some (b, bd)

/-- `find_nearest_office`: first strict minimum of `hav` over offices with
resolvable coordinates; `(none, none)` plays the role of `(None, inf)`. -/
def findNearest (hav : ℚ → ℚ → ℚ → ℚ → ℚ) (lat lon : ℚ) (offices : List Office) :
    Option Office × Option ℚ :=
  match offices.foldl (nearestStep hav lat lon) none with
  | none => (none, none)
  | some (o, d) => (some o, some (pyRound1 d))

/-- The city-name scan of STEP 1a: case-insensitive equality or substring
containment in either direction; empty city and empty office names are falsy. -/
def cityMatch (city : String) (offices : List Office) : Option Office :=
  if city = "" then none
  else
    let cl := pyLower city
    offices.find? (fun o =>
      o.name != "" &&
        (pyLower o.name == cl || pyIn (pyLower o.name) cl || pyIn cl (pyLower o.name)))

/-- The bidirectional substring scan of `_find_office_by_region`: first alias
related to the input by containment in either direction whose target office
exists wins; a matching alias whose target is absent is skipped. -/
def regionScan (rl : String) (offices : List Office) : List (String × String) → Option Office
  | [] => none
  | (k, t) :: rest =>
    if pyIn k rl || pyIn rl k then
      match offices.find? (fun o => o.name == t) with
      | some o => some o
      | none => regionScan rl offices rest
    else regionScan rl offices rest

/-- `_find_office_by_region`: exact lowercase/stripped lookup first; an exact
hit returns its target office when present in the list, otherwise control
falls through to the substring scan. -/
def findOfficeByRegion (region : String) (offices : List Office) : Option Office :=
  if region = "" then none
  else
    let rl := pyStrip (pyLower region)
    match REGION_TO_OFFICE.lookup rl with
    | some t =>
      match offices.find? (fun o => o.name == t) with
      | some o => some o
      | none => regionScan rl offices REGION_TO_OFFICE
    | none => regionScan rl offices REGION_TO_OFFICE

/-- `m.skills and s in m.skills` (a `None` or empty skill list is falsy). -/
def skillHas (sk : Option (List String)) (s : String) : Bool :=
  match sk with
  | none => false
  | some l => !l.isEmpty && l.contains s

/-- The hard eligibility filters of STEP 3, applied in source order; also used
verbatim inside the cross-office fallback loop. -/
def hardFilters (seg tt : Option String) (lang : String) (pool : List Manager) :
    List Manager :=
  let p1 := if seg = some "VIP" ∨ seg = some "Priority"
            then pool.filter (fun m => skillHas m.skills "VIP") else pool
  let p2 := if tt = some "Смена данных"
            then p1.filter (fun m => m.position == some "Главный специалист") else p1
  if lang = "KZ" then p2.filter (fun m => skillHas m.skills "KZ")
  else if lang = "ENG" then p2.filter (fun m => skillHas m.skills "ENG")
  else p2

/-- The `filters_applied` tags appended by STEP 3, in source order. -/
def filterTags (seg tt : Option String) (lang : String) : List String :=
  (if seg = some "VIP" ∨ seg = some "Priority" then ["VIP_skill"] else []) ++
  (if tt = some "Смена данных" then ["data_change_position"] else []) ++
  (if lang = "KZ" then ["KZ_language"] else if lang = "ENG" then ["ENG_language"] else [])

/-- STEP 2 candidate pool: managers whose `office_id` is in `target_ids`. -/
def localCandidates (tids : List Int) (managers : List Manager) : List Manager :=
  managers.filter (fun m =>
    match m.office_id with
    | some i => tids.contains i
    | none => false)

/-- Manager pool of one office inside the fallback loop (`m.office_id == other.id`). -/
def officePool (o : Office) (managers : List Manager) : List Manager :=
  managers.filter (fun m => m.office_id == some o.id)

/-- `chosen.current_workload += 1`. -/
def bumpM (m : Manager) : Manager := { m with current_workload := m.current_workload + 1 }

/-- Post-state of the caller's manager list after the in-place increment. -/
def bumpById (managers : List Manager) (i : Int) : List Manager :=
  managers.map (fun m => if m.id = i then bumpM m else m)

/-- Workload order used by both `candidates.sort` and `pool.sort`. -/
def wle (a b : Manager) : Prop := a.current_workload ≤ b.current_workload

instance : DecidableRel wle := fun a b =>
  inferInstanceAs (Decidable (a.current_workload ≤ b.current_workload))

instance : IsTotal Manager wle := ⟨fun a b => Int.le_total _ _⟩

instance : IsTrans Manager wle := ⟨fun _ _ _ h1 h2 => le_trans h1 h2⟩

/-- Order on optional distances: `none` plays `float("inf")`. -/
def qleB : Option ℚ → Option ℚ → Bool
  | _, none => true
  | none, some _ => false
  | some a, some b => decide (a ≤ b)

/-- Strict version of `qleB`. -/
def qltB (a b : Option ℚ) : Bool := !qleB b a

/-- Sort key of the fallback office walk: distance from the resolved office's
coordinates, `none` when either side is unresolvable. -/
def dKey (hav : ℚ → ℚ → ℚ → ℚ → ℚ) (fbc : Option (ℚ × ℚ)) (o : Office) : Option ℚ :=
  match fbc, officeCoords o with
  | some fc, some oc => some (hav fc.1 fc.2 oc.1 oc.2)
  | _, _ => none

/-- Comparison relation for the fallback office sort. -/
def distLe (hav : ℚ → ℚ → ℚ → ℚ → ℚ) (fbc : Option (ℚ × ℚ)) (o1 o2 : Office) : Prop :=
  qleB (dKey hav fbc o1) (dKey hav fbc o2) = true

instance (hav : ℚ → ℚ → ℚ → ℚ → ℚ) (fbc : Option (ℚ × ℚ)) :
    DecidableRel (distLe hav fbc) := fun o1 o2 =>
  inferInstanceAs (Decidable (_ = true))

instance (hav : ℚ → ℚ → ℚ → ℚ → ℚ) (fbc : Option (ℚ × ℚ)) :
    IsTotal Office (distLe hav fbc) :=
  ⟨fun o1 o2 => by
    unfold distLe qleB
    rcases dKey hav fbc o1 with _ | a <;> rcases dKey hav fbc o2 with _ | b <;> simp
    exact le_total a b⟩

instance (hav : ℚ → ℚ → ℚ → ℚ → ℚ) (fbc : Option (ℚ × ℚ)) :
    IsTrans Office (distLe hav fbc) :=
  ⟨fun o1 o2 o3 => by
    unfold distLe qleB
    rcases dKey hav fbc o1 with _ | a <;> rcases dKey hav fbc o2 with _ | b <;>
      rcases dKey hav fbc o3 with _ | c <;> simp
    exact fun h1 h2 => le_trans h1 h2⟩

/-- The effective language: `analysis.get("language", "RU")`. -/
def langOf (a : Analysis) : String := a.language.getD "RU"

/-- The VIP/Priority priority override: `analysis["priority_score"] = 10`. -/
def pOverride (t : Ticket) (a : Analysis) : Analysis :=
  if t.segment = some "VIP" ∨ t.segment = some "Priority"
  then { a with priority_score := some 10 } else a

/-- Label of one shortlist entry in `reason["top2_managers"]`. -/
def mgrLabel (m : Manager) : String :=
  m.full_name ++ " (workload: " ++ toString m.current_workload ++ ")"

/-- The round-robin `chosen_reason` f-string. -/
def rrReasonStr (chosen : Manager) (c : Nat) : String :=
  "Selected " ++ chosen.full_name ++ " (workload: " ++ toString chosen.current_workload ++
    ") via round-robin (counter=" ++ toString c ++ ")"

/-- The nearest-qualified `chosen_reason` f-string. -/
def nqReasonStr (fb : Office) (chosen : Manager) (other : Office) (dto : Option ℚ) : String :=
  "No eligible manager at " ++ fb.name ++ ". Assigned to nearest qualified: " ++
    chosen.full_name ++ " at " ++ other.name ++ " (" ++ fmtOptKm dto ++
    " km away, workload: " ++ toString chosen.current_workload ++ ")"

/-- STEP 1 of `assign_ticket`: resolve the target office. Errors model the
two raising paths: `nearest.id` on `None` (GPS branch with no resolvable
office) and `offices[0]` on an empty list (default branch). -/
def step1 (hav : ℚ → ℚ → ℚ → ℚ → ℚ) (t : Ticket) (a2 : Analysis) (offices : List Office)
    (r0 : Reason) : Except String (List Int × Office × Reason) :=
  match cityMatch (t.city.getD "") offices with
  | some cm =>
    .ok ([cm.id], cm,
      { r0 with nearest_office := some cm.name, distance_km := some 0,
                filters_applied := r0.filters_applied ++ ["city_name_match"] })
  | none =>
    match a2.latitude, a2.longitude with
    | some la, some lo =>
      match findNearest hav la lo offices with
      | (some nr, d) =>
        .ok ([nr.id], nr,
          { r0 with nearest_office := some nr.name, distance_km := d,
                    client_coords := some (la, lo),
                    office_coords := some (officeCoords nr) })
      | (none, _) => .error "AttributeError"
    | _, _ =>
      match findOfficeByRegion (t.region.getD "") offices with
      | some rm =>
        .ok ([rm.id], rm,
          { r0 with nearest_office := some rm.name,
                    filters_applied := r0.filters_applied ++ ["region_match"] })
      | none =>
        match offices with
        | [] => .error "IndexError"
        | o0 :: _ =>
          let d := (offices.find? (fun o => o.name == "Астана")).getD o0
          .ok ([d.id], d,
            { r0 with nearest_office := some d.name,
                      filters_applied := r0.filters_applied ++ ["no_location_default"] })

/-- The cross-office fallback loop: first office (in the walked order) whose
filtered pool is non-empty, together with its lowest-workload manager (head of
the stable workload sort) and the unsorted pool. -/
def fallbackWalk (seg tt : Option String) (lang : String) (managers : List Manager) :
    List Office → Option (Office × Manager × List Manager)
  | [] => none
  | o :: rest =>
    let pool := hardFilters seg tt lang (officePool o managers)
    match List.insertionSort wle pool with
    | [] => fallbackWalk seg tt lang managers rest
    | ch :: _ => some (o, ch, pool)

/-- The walked order of the remaining offices: the offices outside the target
set, stably sorted by distance from the resolved office when its coordinates
resolve, untouched otherwise (the code skips the sort in that case). -/
def sortedOthers (hav : ℚ → ℚ → ℚ → ℚ → ℚ) (fb : Office) (tids : List Int)
    (offices : List Office) : List Office :=
  let others := offices.filter (fun o => !(tids.contains o.id))
  if (officeCoords fb).isSome
  then List.insertionSort (distLe hav (officeCoords fb)) others
  else others

/-- The `dist_to_other` value recorded in the nearest-qualified explanation. -/
def distTo (hav : ℚ → ℚ → ℚ → ℚ → ℚ) (fb w : Office) : Option ℚ :=
  match officeCoords fb, officeCoords w with
  | some fc, some oc => some (pyRound1 (hav fc.1 fc.2 oc.1 oc.2))
  | _, _ => none

/-- The empty-local-pool branch of `assign_ticket`: sort the remaining offices
by distance from the resolved office (when its coordinates resolve), walk them,
and either assign the nearest qualified manager or report `unassigned`. -/
def fallbackCase (hav : ℚ → ℚ → ℚ → ℚ → ℚ) (t : Ticket) (a2 : Analysis) (tids : List Int)
    (fb : Office) (r3 : Reason) (offices : List Office) (managers : List Manager)
    (rr1 : Option Nat) : AssignOut :=
  match fallbackWalk t.segment a2.ticket_type (langOf a2) managers
      (sortedOthers hav fb tids offices) with
  | some (other, chosen, _pool) =>
    let dto : Option ℚ := distTo hav fb other
    { manager := some (bumpM chosen), office := some other,
      reason := { r3 with filters_applied := r3.filters_applied ++ ["nearest_office_fallback"],
                          chosen_by := "nearest_qualified",
                          chosen_reason := nqReasonStr fb chosen other dto },
      managers := bumpById managers chosen.id, rrState := rr1, analysis := a2 }
  | none =>
    { manager := none, office := some fb,
      reason := { r3 with chosen_by := "unassigned",
                          chosen_reason := "No qualified manager found at any office" },
      managers := managers, rrState := rr1, analysis := a2 }

/-- STEPS 2-5 of `assign_ticket` (everything after office resolution); total. -/
def assignCore (hav : ℚ → ℚ → ℚ → ℚ → ℚ) (t : Ticket) (a2 : Analysis) (tids : List Int)
    (fb : Office) (r1 : Reason) (offices : List Office) (managers : List Manager)
    (c : Nat) (rr1 : Option Nat) : AssignOut :=
  let cands := localCandidates tids managers
  let r2 := { r1 with candidates_initial := cands.length }
  let lang := langOf a2
  let filtered := hardFilters t.segment a2.ticket_type lang cands
  let r3 := { r2 with filters_applied := r2.filters_applied ++ filterTags t.segment a2.ticket_type lang,
                      candidates_after_filters := filtered.length }
  match List.insertionSort wle filtered with
  | [] => fallbackCase hav t a2 tids fb r3 offices managers rr1
  | c0 :: rest =>
    let top2 := (c0 :: rest).take 2
    let chosen := top2.getD (c % top2.length) c0
    { manager := some (bumpM chosen), office := some fb,
      reason := { r3 with top2_managers := top2.map mgrLabel,
                          chosen_by := "round_robin",
                          chosen_reason := rrReasonStr chosen c },
      managers := bumpById managers chosen.id,
      rrState := incRR rr1, analysis := a2 }

/-- `assign_ticket`. -/
def assignTicket (hav : ℚ → ℚ → ℚ → ℚ → ℚ) (t : Ticket) (a : Analysis)
    (offices : List Office) (managers : List Manager) (rr : Option Nat) :
    Except String AssignOut :=
  if a.ticket_type = some "Спам" then
    .ok { manager := none, office := none, reason := spamReason,
          managers := managers, rrState := rr, analysis := a }
  else
    let a2 := pOverride t a
    let g := getRR rr
    match step1 hav t a2 offices initReason with
    | .error e => .error e
    | .ok (tids, fb, r1) => .ok (assignCore hav t a2 tids fb r1 offices managers g.1 g.2)

/-- Chain of consecutive `assign_ticket` calls on the same ticket, threading
manager workloads and the counter; records the chosen manager id per call
(-1 when a call assigns nobody), stopping early on an exception. -/
def runSeq (hav : ℚ → ℚ → ℚ → ℚ → ℚ) (t : Ticket) (a : Analysis) (offices : List Office) :
    Nat → List Manager → Option Nat → List Int
  | 0, _, _ => []
  | n + 1, ms, rr =>
    match assignTicket hav t a offices ms rr with
    | .ok res =>
      (match res.manager with
       | some m => m.id
       | none => -1) :: runSeq hav t a offices n res.managers res.rrState
    | .error _ => []

/-- Constant distance function used to instantiate `hav` in concrete runs. -/
def hav0 : ℚ → ℚ → ℚ → ℚ → ℚ := fun _ _ _ _ => 0

/-! Concrete fixtures used by witnesses and counterexamples. -/

def oAlm : Office := ⟨1, "Алматы", none, none⟩

/-- An office whose name is outside `OFFICE_COORDS` and with no stored
coordinates, so its coordinates are unresolvable. -/
def oTown : Office := ⟨1, "Городок", none, none⟩

def oOther : Office := ⟨2, "Другой", none, none⟩

def mgrA : Manager := ⟨1, "A", some "Специалист", some 1, some [], 0⟩

def mgrB : Manager := ⟨2, "B", some "Специалист", some 1, some [], 0⟩

def mgrKZ : Manager := ⟨4, "K", some "Специалист", some 1, some ["KZ"], 0⟩

def mgrVIP : Manager := ⟨3, "V", some "Специалист", some 2, some ["VIP"], 7⟩

def tMass : Ticket := ⟨1, some "Mass", none, some "Алматы"⟩

def tVIPt : Ticket := ⟨1, some "VIP", none, some "Городок"⟩

def tVIPa : Ticket := ⟨1, some "VIP", none, some "Алматы"⟩

def tNoLoc : Ticket := ⟨1, some "Mass", none, none⟩

def aRU : Analysis := ⟨some "Консультация", some "RU", some 5, none, none⟩

def aKZ : Analysis := ⟨some "Консультация", some "KZ", some 5, none, none⟩

def aSpam : Analysis := ⟨some "Спам", some "RU", some 5, none, none⟩

def aGeo : Analysis := ⟨some "Консультация", some "RU", some 5, some 1, some 2⟩

def mgrVIP1 : Manager := ⟨5, "W", some "Специалист", some 1, some ["VIP"], 2⟩

def oUKam : Office := ⟨11, "Усть-Каменогорск", none, none⟩

/-- `step1` explanation record after a city-name match on "Алматы". -/
def c3r1 : Reason :=
  { initReason with nearest_office := some "Алматы", distance_km := some 0,
                    filters_applied := ["city_name_match"] }

/-- `step1` explanation record after a city-name match on "Городок". -/
def cTownR1 : Reason :=
  { initReason with nearest_office := some "Городок", distance_km := some 0,
                    filters_applied := ["city_name_match"] }

/-- Outcome of `assignTicket hav0 tNoLoc aRU [oTown] [] (some 0)`. -/
def c6out : AssignOut :=
  { manager := none,
    office := some oTown,
    reason := { nearest_office := some "Городок", distance_km := none,
                filters_applied := ["no_location_default"],
                candidates_initial := 0, candidates_after_filters := 0,
                top2_managers := [],
                chosen_by := "unassigned",
                chosen_reason := "No qualified manager found at any office",
                client_coords := none, office_coords := none },
    managers := [],
    rrState := some 0,
    analysis := aRU }

/-- Outcome of `assignTicket hav0 tMass aKZ [oAlm] [mgrKZ] (some 0)`. -/
def c1out : AssignOut :=
  { manager := some ⟨4, "K", some "Специалист", some 1, some ["KZ"], 1⟩,
    office := some oAlm,
    reason := { nearest_office := some "Алматы", distance_km := some 0,
                filters_applied := ["city_name_match", "KZ_language"],
                candidates_initial := 1, candidates_after_filters := 1,
                top2_managers := ["K (workload: 0)"],
                chosen_by := "round_robin",
                chosen_reason := "Selected K (workload: 0) via round-robin (counter=0)",
                client_coords := none, office_coords := none },
    managers := [⟨4, "K", some "Специалист", some 1, some ["KZ"], 1⟩],
    rrState := some 1,
    analysis := aKZ }

/-- Outcome of `assignTicket hav0 tMass aRU [oAlm] [mgrA, mgrB] (some 0)`. -/
def c3out : AssignOut :=
  { manager := some ⟨1, "A", some "Специалист", some 1, some [], 1⟩,
    office := some oAlm,
    reason := { nearest_office := some "Алматы", distance_km := some 0,
                filters_applied := ["city_name_match"],
                candidates_initial := 2, candidates_after_filters := 2,
                top2_managers := ["A (workload: 0)", "B (workload: 0)"],
                chosen_by := "round_robin",
                chosen_reason := "Selected A (workload: 0) via round-robin (counter=0)",
                client_coords := none, office_coords := none },
    managers := [⟨1, "A", some "Специалист", some 1, some [], 1⟩, mgrB],
    rrState := some 1,
    analysis := aRU }

/-- Outcome of `assignTicket hav0 tVIPa aRU [oAlm] [mgrVIP1] (some 3)`. -/
def c5out : AssignOut :=
  { manager := some ⟨5, "W", some "Специалист", some 1, some ["VIP"], 3⟩,
    office := some oAlm,
    reason := { nearest_office := some "Алматы", distance_km := some 0,
                filters_applied := ["city_name_match", "VIP_skill"],
                candidates_initial := 1, candidates_after_filters := 1,
                top2_managers := ["W (workload: 2)"],
                chosen_by := "round_robin",
                chosen_reason := "Selected W (workload: 2) via round-robin (counter=3)",
                client_coords := none, office_coords := none },
    managers := [⟨5, "W", some "Специалист", some 1, some ["VIP"], 3⟩],
    rrState := some 4,
    analysis := { aRU with priority_score := some 10 } }

/-- Outcome of `assignTicket hav0 tVIPt aRU [oTown, oOther] [mgrA, mgrVIP] (some 5)`. -/
def c8out : AssignOut :=
  { manager := some ⟨3, "V", some "Специалист", some 2, some ["VIP"], 8⟩,
    office := some oOther,
    reason := { nearest_office := some "Городок", distance_km := some 0,
                filters_applied := ["city_name_match", "VIP_skill", "nearest_office_fallback"],
                candidates_initial := 1, candidates_after_filters := 0,
                top2_managers := [],
                chosen_by := "nearest_qualified",
                chosen_reason := "No eligible manager at Городок. Assigned to nearest qualified: V at Другой (None km away, workload: 7)",
                client_coords := none, office_coords := none },
    managers := [mgrA, ⟨3, "V", some "Специалист", some 2, some ["VIP"], 8⟩],
    rrState := some 5,
    analysis := { aRU with priority_score := some 10 } }

/-- Outcome of `assignTicket hav0 tVIPt aRU [oTown] [mgrA] (some 2)`. -/
def c9out : AssignOut :=
  { manager := none,
    office := some oTown,
    reason := { nearest_office := some "Городок", distance_km := some 0,
                filters_applied := ["city_name_match", "VIP_skill"],
                candidates_initial := 1, candidates_after_filters := 0,
                top2_managers := [],
                chosen_by := "unassigned",
                chosen_reason := "No qualified manager found at any office",
                client_coords := none, office_coords := none },
    managers := [mgrA],
    rrState := some 2,
    analysis := { aRU with priority_score := some 10 } }

/-- Outcome of `assignTicket hav0 tVIPa aRU [oAlm] [mgrA] (some 0)`. -/
def c10out : AssignOut :=
  { manager := none,
    office := some oAlm,
    reason := { nearest_office := some "Алматы", distance_km := some 0,
                filters_applied := ["city_name_match", "VIP_skill"],
                candidates_initial := 1, candidates_after_filters := 0,
                top2_managers := [],
                chosen_by := "unassigned",
                chosen_reason := "No qualified manager found at any office",
                client_coords := none, office_coords := none },
    managers := [mgrA],
    rrState := some 0,
    analysis := { aRU with priority_score := some 10 } }

/-! Helper lemmas. -/

theorem getRR_fst (rr : Option Nat) : (getRR rr).1 = rrVal rr := by
  cases rr <;> rfl

theorem getRR_snd_val (rr : Option Nat) : rrVal (getRR rr).2 = rrVal rr := by
  cases rr <;> rfl

theorem incRR_val (s : Option Nat) : rrVal (incRR s) = rrVal s + 1 := by
  cases s <;> rfl

theorem pOverride_ticket_type (t : Ticket) (a : Analysis) :
    (pOverride t a).ticket_type = a.ticket_type := by
  unfold pOverride; split <;> rfl

theorem pOverride_language (t : Ticket) (a : Analysis) :
    (pOverride t a).language = a.language := by
  unfold pOverride; split <;> rfl

theorem langOf_pOverride (t : Ticket) (a : Analysis) :
    langOf (pOverride t a) = langOf a := by
  unfold langOf; rw [pOverride_language]

theorem bumpM_skills (m : Manager) : (bumpM m).skills = m.skills := rfl

theorem bumpM_position (m : Manager) : (bumpM m).position = m.position := rfl

theorem insertionSort_eq_nil_iff {α : Type} (r : α → α → Prop) [DecidableRel r]
    (l : List α) : List.insertionSort r l = [] ↔ l = [] := by
  constructor
  · intro h
    have hl := List.length_insertionSort r l
    rw [h] at hl
    exact List.eq_nil_of_length_eq_zero hl.symm
  · intro h; subst h; rfl

theorem sort_head_min {pool : List Manager} {ch : Manager} {rest : List Manager}
    (h : List.insertionSort wle pool = ch :: rest) :
    ch ∈ pool ∧ ∀ m ∈ pool, ch.current_workload ≤ m.current_workload := by
  have hs := List.sorted_insertionSort wle pool
  have hperm := List.perm_insertionSort wle pool
  rw [h] at hs hperm
  refine ⟨hperm.mem_iff.mp (List.mem_cons_self _ _), fun m hm => ?_⟩
  have hmem : m ∈ ch :: rest := hperm.mem_iff.mpr hm
  rcases List.mem_cons.mp hmem with he | ht
  · rw [he]
  · exact (List.sorted_cons.mp hs).1 m ht

theorem mem_hardFilters {seg tt : Option String} {lang : String} {pool : List Manager}
    {m : Manager} (h : m ∈ hardFilters seg tt lang pool) :
    m ∈ pool ∧
    ((seg = some "VIP" ∨ seg = some "Priority") → skillHas m.skills "VIP" = true) ∧
    (tt = some "Смена данных" → m.position = some "Главный специалист") ∧
    (lang = "KZ" → skillHas m.skills "KZ" = true) ∧
    (lang = "ENG" → skillHas m.skills "ENG" = true) := by
  unfold hardFilters at h
  by_cases h1 : seg = some "VIP" ∨ seg = some "Priority" <;>
    by_cases h2 : tt = some "Смена данных" <;>
      by_cases h3 : lang = "KZ" <;>
        by_cases h4 : lang = "ENG" <;>
          simp only [h1, h2, h3, h4, if_true, if_false, ite_true, ite_false,
            if_pos, if_neg, not_false_iff, List.mem_filter] at h <;>
          simp_all [beq_iff_eq]

theorem hardFilters_subset {seg tt : Option String} {lang : String}
    {pool : List Manager} {m : Manager} (h : m ∈ hardFilters seg tt lang pool) :
    m ∈ pool := (mem_hardFilters h).1

theorem filter_orderedInsert (a : Manager) (l : List Manager) (w : Int) :
    (List.orderedInsert wle a l).filter (fun x => x.current_workload == w) =
      if a.current_workload = w
      then a :: l.filter (fun x => x.current_workload == w)
      else l.filter (fun x => x.current_workload == w) := by
  induction l with
  | nil =>
    by_cases haw : a.current_workload = w
    · have hb : (a.current_workload == w) = true := beq_iff_eq.mpr haw
      simp [List.orderedInsert, List.filter, hb, haw]
    · have hb : (a.current_workload == w) = false := beq_eq_false_iff_ne.mpr haw
      simp [List.orderedInsert, List.filter, hb, haw]
  | cons b t ih =>
    by_cases hab : wle a b
    · rw [List.orderedInsert, if_pos hab]
      by_cases haw : a.current_workload = w
      · have hb : (a.current_workload == w) = true := beq_iff_eq.mpr haw
        simp [List.filter, hb, haw]
      · have hb : (a.current_workload == w) = false := beq_eq_false_iff_ne.mpr haw
        simp [List.filter, hb, haw]
    · rw [List.orderedInsert, if_neg hab]
      have hba : b.current_workload < a.current_workload := by
        unfold wle at hab; omega
      by_cases hbw : b.current_workload = w
      · have haw : ¬ a.current_workload = w := by omega
        have hbb : (b.current_workload == w) = true := beq_iff_eq.mpr hbw
        have hab2 : (a.current_workload == w) = false := beq_eq_false_iff_ne.mpr haw
        simp [List.filter, hbb, hab2, ih, haw]
      · have hbb : (b.current_workload == w) = false := beq_eq_false_iff_ne.mpr hbw
        by_cases haw : a.current_workload = w
        · simp [List.filter, hbb, ih, haw]
        · simp [List.filter, hbb, ih, haw]

theorem insertionSort_filter_workload (l : List Manager) (w : Int) :
    (List.insertionSort wle l).filter (fun x => x.current_workload == w) =
      l.filter (fun x => x.current_workload == w) := by
  induction l with
  | nil => rfl
  | cons a t ih =>
    rw [List.insertionSort, filter_orderedInsert]
    by_cases haw : a.current_workload = w
    · have hb : (a.current_workload == w) = true := beq_iff_eq.mpr haw
      simp [List.filter, hb, haw, ih]
    · have hb : (a.current_workload == w) = false := beq_eq_false_iff_ne.mpr haw
      simp [List.filter, hb, haw, ih]

theorem getD_get? {α : Type} {l : List α} {n : Nat} (d : α) (h : n < l.length) :
    l.get? n = some (l.getD n d) := by
  rw [List.getD_eq_get?, List.get?_eq_get h]
  rfl

theorem getD_mem {α : Type} {l : List α} {n : Nat} (d : α) (h : n < l.length) :
    l.getD n d ∈ l := by
  rw [List.getD_eq_get?, List.get?_eq_get h]
  exact List.get_mem l n h

theorem fallbackWalk_eq_none {seg tt : Option String} {lang : String}
    {managers : List Manager} {l : List Office}
    (h : ∀ o ∈ l, hardFilters seg tt lang (officePool o managers) = []) :
    fallbackWalk seg tt lang managers l = none := by
  induction l with
  | nil => rfl
  | cons o rest ih =>
    rw [fallbackWalk]
    have hp : hardFilters seg tt lang (officePool o managers) = [] :=
      h o (List.mem_cons_self _ _)
    rw [hp]
    exact ih fun o2 ho2 => h o2 (List.mem_cons_of_mem _ ho2)

theorem fallbackWalk_eq_some {seg tt : Option String} {lang : String}
    {managers : List Manager} {l : List Office} {w : Office} {ch : Manager}
    {pool : List Manager}
    (h : fallbackWalk seg tt lang managers l = some (w, ch, pool)) :
    ∃ l1 l2, l = l1 ++ w :: l2 ∧
      (∀ o ∈ l1, hardFilters seg tt lang (officePool o managers) = []) ∧
      pool = hardFilters seg tt lang (officePool w managers) ∧
      pool ≠ [] ∧
      (List.insertionSort wle pool).head? = some ch := by
  induction l with
  | nil => exact absurd h (by simp [fallbackWalk])
  | cons o rest ih =>
    rw [fallbackWalk] at h
    cases hsort : List.insertionSort wle (hardFilters seg tt lang (officePool o managers)) with
    | nil =>
      rw [hsort] at h
      obtain ⟨l1, l2, hl, he, hp, hne, hh⟩ := ih h
      refine ⟨o :: l1, l2, by rw [hl]; rfl, ?_, hp, hne, hh⟩
      intro o2 ho2
      rcases List.mem_cons.mp ho2 with he2 | ht2
      · rw [he2]
        exact (insertionSort_eq_nil_iff wle _).mp hsort
      · exact he o2 ht2
    | cons c cs =>
      rw [hsort] at h
      have hw : o = w ∧ c = ch ∧ hardFilters seg tt lang (officePool o managers) = pool := by
        have := Option.some.inj h
        exact ⟨congrArg Prod.fst this, by
          have h2 := congrArg Prod.snd this
          exact congrArg Prod.fst h2, by
          have h2 := congrArg Prod.snd this
          exact congrArg Prod.snd h2⟩
      obtain ⟨ho, hc, hp⟩ := hw
      subst ho
      refine ⟨[], rest, rfl, by simp, hp.symm, ?_, ?_⟩
      · intro hnil
        rw [← hp] at hnil
        rw [hnil] at hsort
        simp [List.insertionSort] at hsort
      · rw [← hp, hsort, hc]
        rfl

theorem qleB_refl (a : Option ℚ) : qleB a a = true := by
  cases a with
  | none => rfl
  | some q => simp [qleB]

theorem nearestFold_isSome (hav : ℚ → ℚ → ℚ → ℚ → ℚ) (lat lon : ℚ) :
    ∀ (l : List Office) (acc : Option (Office × ℚ)),
      (acc.isSome ∨ ∃ o ∈ l, (officeCoords o).isSome) →
      (l.foldl (nearestStep hav lat lon) acc).isSome := by
  intro l
  induction l with
  | nil =>
    intro acc hacc
    rcases hacc with hs | ⟨o, ho, _⟩
    · simpa using hs
    · exact absurd ho (List.not_mem_nil o)
  | cons o rest ih =>
    intro acc hacc
    rw [List.foldl_cons]
    cases hoc : officeCoords o with
    | none =>
      refine ih _ ?_
      rw [nearestStep, hoc]
      rcases hacc with hs | ⟨o2, ho2, hc2⟩
      · exact Or.inl hs
      · rcases List.mem_cons.mp ho2 with he | ht
        · rw [he, hoc] at hc2; exact absurd hc2 (by simp)
        · exact Or.inr ⟨o2, ht, hc2⟩
    | some oc =>
      refine ih _ (Or.inl ?_)
      rw [nearestStep, hoc]
      cases acc with
      | none => simp
      | some p =>
        rcases p with ⟨b, bd⟩
        by_cases hlt : hav lat lon oc.1 oc.2 < bd <;> simp [hlt]

theorem findNearest_isSome (hav : ℚ → ℚ → ℚ → ℚ → ℚ) (lat lon : ℚ)
    {offices : List Office} (h : ∃ o ∈ offices, (officeCoords o).isSome) :
    (findNearest hav lat lon offices).1.isSome := by
  have hf := nearestFold_isSome hav lat lon offices none (Or.inr h)
  unfold findNearest
  rcases hfold : offices.foldl (nearestStep hav lat lon) none with _ | ⟨o, d⟩
  · rw [hfold] at hf; simp at hf
  · simp

theorem assignTicket_spam {hav : ℚ → ℚ → ℚ → ℚ → ℚ} {t : Ticket} {a : Analysis}
    {offices : List Office} {managers : List Manager} {rr : Option Nat}
    (h : a.ticket_type = some "Спам") :
    assignTicket hav t a offices managers rr =
      .ok { manager := none, office := none, reason := spamReason,
            managers := managers, rrState := rr, analysis := a } := by
  rw [assignTicket, if_pos h]

theorem assignTicket_nonspam {hav : ℚ → ℚ → ℚ → ℚ → ℚ} {t : Ticket} {a : Analysis}
    {offices : List Office} {managers : List Manager} {rr : Option Nat}
    {tids : List Int} {fb : Office} {r1 : Reason}
    (h : ¬ a.ticket_type = some "Спам")
    (hs : step1 hav t (pOverride t a) offices initReason = .ok (tids, fb, r1)) :
    assignTicket hav t a offices managers rr =
      .ok (assignCore hav t (pOverride t a) tids fb r1 offices managers
            (getRR rr).1 (getRR rr).2) := by
  rw [assignTicket, if_neg h]
  simp only [hs]

theorem assignTicket_step1_error {hav : ℚ → ℚ → ℚ → ℚ → ℚ} {t : Ticket} {a : Analysis}
    {offices : List Office} {managers : List Manager} {rr : Option Nat} {e : String}
    (h : ¬ a.ticket_type = some "Спам")
    (hs : step1 hav t (pOverride t a) offices initReason = .error e) :
    assignTicket hav t a offices managers rr = .error e := by
  rw [assignTicket, if_neg h]
  simp only [hs]

theorem assignCore_rr {hav : ℚ → ℚ → ℚ → ℚ → ℚ} {t : Ticket} {a2 : Analysis}
    {tids : List Int} {fb : Office} {r1 : Reason} {offices : List Office}
    {managers : List Manager} {c : Nat} {rr1 : Option Nat}
    {c0 : Manager} {rest : List Manager} {chosen : Manager}
    (hsort : List.insertionSort wle
        (hardFilters t.segment a2.ticket_type (langOf a2) (localCandidates tids managers)) =
      c0 :: rest)
    (hch : chosen = ((c0 :: rest).take 2).getD (c % ((c0 :: rest).take 2).length) c0) :
    assignCore hav t a2 tids fb r1 offices managers c rr1 =
      { manager := some (bumpM chosen), office := some fb,
        reason := { r1 with
          candidates_initial := (localCandidates tids managers).length,
          filters_applied := r1.filters_applied ++ filterTags t.segment a2.ticket_type (langOf a2),
          candidates_after_filters :=
            (hardFilters t.segment a2.ticket_type (langOf a2) (localCandidates tids managers)).length,
          top2_managers := ((c0 :: rest).take 2).map mgrLabel,
          chosen_by := "round_robin",
          chosen_reason := rrReasonStr chosen c },
        managers := bumpById managers chosen.id,
        rrState := incRR rr1, analysis := a2 } := by
  subst hch
  rw [assignCore]
  simp only [hsort]

theorem assignCore_empty {hav : ℚ → ℚ → ℚ → ℚ → ℚ} {t : Ticket} {a2 : Analysis}
    {tids : List Int} {fb : Office} {r1 : Reason} {offices : List Office}
    {managers : List Manager} {c : Nat} {rr1 : Option Nat}
    (hsort : List.insertionSort wle
        (hardFilters t.segment a2.ticket_type (langOf a2) (localCandidates tids managers)) =
      []) :
    assignCore hav t a2 tids fb r1 offices managers c rr1 =
      fallbackCase hav t a2 tids fb
        { r1 with
          candidates_initial := (localCandidates tids managers).length,
          filters_applied := r1.filters_applied ++ filterTags t.segment a2.ticket_type (langOf a2),
          candidates_after_filters :=
            (hardFilters t.segment a2.ticket_type (langOf a2) (localCandidates tids managers)).length }
        offices managers rr1 := by
  rw [assignCore]
  simp only [hsort]

theorem fallbackCase_walk_some {hav : ℚ → ℚ → ℚ → ℚ → ℚ} {t : Ticket} {a2 : Analysis}
    {tids : List Int} {fb : Office} {r3 : Reason} {offices : List Office}
    {managers : List Manager} {rr1 : Option Nat}
    {w : Office} {ch : Manager} {pool : List Manager}
    (hwalk : fallbackWalk t.segment a2.ticket_type (langOf a2) managers
        (sortedOthers hav fb tids offices) = some (w, ch, pool)) :
    fallbackCase hav t a2 tids fb r3 offices managers rr1 =
      { manager := some (bumpM ch), office := some w,
        reason := { r3 with
          filters_applied := r3.filters_applied ++ ["nearest_office_fallback"],
          chosen_by := "nearest_qualified",
          chosen_reason := nqReasonStr fb ch w (distTo hav fb w) },
        managers := bumpById managers ch.id, rrState := rr1, analysis := a2 } := by
  rw [fallbackCase]
  simp only [hwalk]

theorem fallbackCase_walk_none {hav : ℚ → ℚ → ℚ → ℚ → ℚ} {t : Ticket} {a2 : Analysis}
    {tids : List Int} {fb : Office} {r3 : Reason} {offices : List Office}
    {managers : List Manager} {rr1 : Option Nat}
    (hwalk : fallbackWalk t.segment a2.ticket_type (langOf a2) managers
        (sortedOthers hav fb tids offices) = none) :
    fallbackCase hav t a2 tids fb r3 offices managers rr1 =
      { manager := none, office := some fb,
        reason := { r3 with
          chosen_by := "unassigned",
          chosen_reason := "No qualified manager found at any office" },
        managers := managers, rrState := rr1, analysis := a2 } := by
  rw [fallbackCase]
  simp only [hwalk]

theorem fallbackCase_analysis {hav : ℚ → ℚ → ℚ → ℚ → ℚ} {t : Ticket} {a2 : Analysis}
    {tids : List Int} {fb : Office} {r3 : Reason} {offices : List Office}
    {managers : List Manager} {rr1 : Option Nat} :
    (fallbackCase hav t a2 tids fb r3 offices managers rr1).analysis = a2 := by
  rw [fallbackCase]
  split <;> rfl

theorem assignCore_analysis {hav : ℚ → ℚ → ℚ → ℚ → ℚ} {t : Ticket} {a2 : Analysis}
    {tids : List Int} {fb : Office} {r1 : Reason} {offices : List Office}
    {managers : List Manager} {c : Nat} {rr1 : Option Nat} :
    (assignCore hav t a2 tids fb r1 offices managers c rr1).analysis = a2 := by
  rw [assignCore]
  split
  · exact fallbackCase_analysis
  · rfl

theorem assign_analysis_eq {hav : ℚ → ℚ → ℚ → ℚ → ℚ} {t : Ticket} {a : Analysis}
    {offices : List Office} {managers : List Manager} {rr : Option Nat} {res : AssignOut}
    (hns : ¬ a.ticket_type = some "Спам")
    (hok : assignTicket hav t a offices managers rr = .ok res) :
    res.analysis = pOverride t a := by
  cases hstep : step1 hav t (pOverride t a) offices initReason with
  | error e =>
    rw [assignTicket_step1_error hns hstep] at hok
    cases hok
  | ok v =>
    rcases v with ⟨tids, fb, r1⟩
    rw [assignTicket_nonspam hns hstep] at hok
    have hres : res = assignCore hav t (pOverride t a) tids fb r1 offices managers
        (getRR rr).1 (getRR rr).2 := (Except.ok.inj hok).symm
    rw [hres, assignCore_analysis]

theorem assign_manager_filtered {hav : ℚ → ℚ → ℚ → ℚ → ℚ} {t : Ticket} {a : Analysis}
    {offices : List Office} {managers : List Manager} {rr : Option Nat} {res : AssignOut}
    {mgr : Manager}
    (hok : assignTicket hav t a offices managers rr = .ok res)
    (hmgr : res.manager = some mgr) :
    ∃ ch pool, mgr = bumpM ch ∧
      ch ∈ hardFilters t.segment a.ticket_type (langOf a) pool := by
  by_cases hspam : a.ticket_type = some "Спам"
  · rw [assignTicket_spam hspam] at hok
    have hres := (Except.ok.inj hok).symm
    rw [hres] at hmgr
    cases hmgr
  · cases hstep : step1 hav t (pOverride t a) offices initReason with
    | error e =>
      rw [assignTicket_step1_error hspam hstep] at hok
      cases hok
    | ok v =>
      rcases v with ⟨tids, fb, r1⟩
      rw [assignTicket_nonspam hspam hstep] at hok
      have hres : res = assignCore hav t (pOverride t a) tids fb r1 offices managers
          (getRR rr).1 (getRR rr).2 := (Except.ok.inj hok).symm
      rw [hres] at hmgr
      have htt := pOverride_ticket_type t a
      have hlg := langOf_pOverride t a
      rcases hsort : List.insertionSort wle
          (hardFilters t.segment (pOverride t a).ticket_type (langOf (pOverride t a))
            (localCandidates tids managers)) with _ | ⟨c0, rest⟩
      · rw [assignCore_empty hsort] at hmgr
        rcases hwalk : fallbackWalk t.segment (pOverride t a).ticket_type
            (langOf (pOverride t a)) managers (sortedOthers hav fb tids offices) with
            _ | ⟨w, ch, pool⟩
        · rw [fallbackCase_walk_none hwalk] at hmgr
          cases hmgr
        · rw [fallbackCase_walk_some hwalk] at hmgr
          have hbump : bumpM ch = mgr := Option.some.inj hmgr
          obtain ⟨l1, l2, _, _, hpool, _, hhead⟩ := fallbackWalk_eq_some hwalk
          rcases hsp : List.insertionSort wle pool with _ | ⟨ch2, rest2⟩
          · rw [hsp] at hhead; cases hhead
          · rw [hsp] at hhead
            have hch2 : ch2 = ch := Option.some.inj hhead
            have hchmem : ch ∈ pool := by
              rw [← hch2]
              exact (sort_head_min hsp).1
            refine ⟨ch, officePool w managers, hbump.symm, ?_⟩
            rw [← htt, ← hlg, ← hpool]
            exact hchmem
      · rw [assignCore_rr hsort rfl] at hmgr
        have hbump : bumpM (((c0 :: rest).take 2).getD
            ((getRR rr).1 % ((c0 :: rest).take 2).length) c0) = mgr :=
          Option.some.inj hmgr
        have hlen : (getRR rr).1 % ((c0 :: rest).take 2).length <
            ((c0 :: rest).take 2).length := by
          apply Nat.mod_lt
          simp [List.length_take]
        have hmem2 : ((c0 :: rest).take 2).getD
            ((getRR rr).1 % ((c0 :: rest).take 2).length) c0 ∈ (c0 :: rest).take 2 :=
          getD_mem c0 hlen
        have hsub : ∀ y ∈ (c0 :: rest).take 2,
            y ∈ hardFilters t.segment (pOverride t a).ticket_type (langOf (pOverride t a))
                  (localCandidates tids managers) := by
          intro y hy
          have hy2 := List.take_subset 2 (c0 :: rest) hy
          rw [← hsort] at hy2
          exact (List.mem_insertionSort wle).mp hy2
        refine ⟨_, localCandidates tids managers, hbump.symm, ?_⟩
        rw [← htt, ← hlg]
        exact hsub _ hmem2

theorem pOverride_latitude (t : Ticket) (a : Analysis) :
    (pOverride t a).latitude = a.latitude := by
  unfold pOverride; split <;> rfl

theorem pOverride_longitude (t : Ticket) (a : Analysis) :
    (pOverride t a).longitude = a.longitude := by
  unfold pOverride; split <;> rfl

theorem step1_city (hav : ℚ → ℚ → ℚ → ℚ → ℚ) {t : Ticket} (a2 : Analysis)
    {offices : List Office} (r0 : Reason) {cm : Office}
    (hc : cityMatch (t.city.getD "") offices = some cm) :
    step1 hav t a2 offices r0 = .ok ([cm.id], cm,
      { r0 with nearest_office := some cm.name, distance_km := some 0,
                filters_applied := r0.filters_applied ++ ["city_name_match"] }) := by
  rw [step1.eq_def]; simp only [hc]

theorem step1_geo (hav : ℚ → ℚ → ℚ → ℚ → ℚ) {t : Ticket} (a2 : Analysis)
    {offices : List Office} (r0 : Reason) {la lo : ℚ} {nr : Office} {d : Option ℚ}
    (hc : cityMatch (t.city.getD "") offices = none)
    (hla : a2.latitude = some la) (hlo : a2.longitude = some lo)
    (hfn : findNearest hav la lo offices = (some nr, d)) :
    step1 hav t a2 offices r0 = .ok ([nr.id], nr,
      { r0 with nearest_office := some nr.name, distance_km := d,
                client_coords := some (la, lo),
                office_coords := some (officeCoords nr) }) := by
  rw [step1.eq_def]; simp only [hc, hla, hlo, hfn]

theorem step1_geo_error (hav : ℚ → ℚ → ℚ → ℚ → ℚ) {t : Ticket} (a2 : Analysis)
    {offices : List Office} (r0 : Reason) {la lo : ℚ} {d : Option ℚ}
    (hc : cityMatch (t.city.getD "") offices = none)
    (hla : a2.latitude = some la) (hlo : a2.longitude = some lo)
    (hfn : findNearest hav la lo offices = (none, d)) :
    step1 hav t a2 offices r0 = .error "AttributeError" := by
  rw [step1.eq_def]; simp only [hc, hla, hlo, hfn]

theorem step1_region (hav : ℚ → ℚ → ℚ → ℚ → ℚ) {t : Ticket} (a2 : Analysis)
    {offices : List Office} (r0 : Reason) {rm : Office}
    (hc : cityMatch (t.city.getD "") offices = none)
    (hll : a2.latitude = none ∨ a2.longitude = none)
    (hr : findOfficeByRegion (t.region.getD "") offices = some rm) :
    step1 hav t a2 offices r0 = .ok ([rm.id], rm,
      { r0 with nearest_office := some rm.name,
                filters_applied := r0.filters_applied ++ ["region_match"] }) := by
  rw [step1.eq_def]
  rcases hla : a2.latitude with _ | la <;> rcases hlo : a2.longitude with _ | lo <;>
    simp only [hc, hr]
  rcases hll with h | h
  · rw [hla] at h; cases h
  · rw [hlo] at h; cases h

theorem step1_default (hav : ℚ → ℚ → ℚ → ℚ → ℚ) {t : Ticket} (a2 : Analysis)
    {o0 : Office} {rest : List Office} (r0 : Reason)
    (hc : cityMatch (t.city.getD "") (o0 :: rest) = none)
    (hll : a2.latitude = none ∨ a2.longitude = none)
    (hr : findOfficeByRegion (t.region.getD "") (o0 :: rest) = none) :
    step1 hav t a2 (o0 :: rest) r0 = .ok
      ([(((o0 :: rest).find? (fun o => o.name == "Астана")).getD o0).id],
       ((o0 :: rest).find? (fun o => o.name == "Астана")).getD o0,
       { r0 with
         nearest_office := some (((o0 :: rest).find? (fun o => o.name == "Астана")).getD o0).name,
         filters_applied := r0.filters_applied ++ ["no_location_default"] }) := by
  rw [step1.eq_def]
  rcases hla : a2.latitude with _ | la <;> rcases hlo : a2.longitude with _ | lo <;>
    simp only [hc, hr]
  rcases hll with h | h
  · rw [hla] at h; cases h
  · rw [hlo] at h; cases h

theorem assignCore_reason {hav : ℚ → ℚ → ℚ → ℚ → ℚ} {t : Ticket} {a2 : Analysis}
    {tids : List Int} {fb : Office} {r1 : Reason} {offices : List Office}
    {managers : List Manager} {c : Nat} {rr1 : Option Nat} :
    (assignCore hav t a2 tids fb r1 offices managers c rr1).reason.nearest_office =
      r1.nearest_office ∧
    ∃ suf, (assignCore hav t a2 tids fb r1 offices managers c rr1).reason.filters_applied =
      r1.filters_applied ++ suf := by
  rw [assignCore]
  split
  · rw [fallbackCase]
    split
    · refine ⟨rfl, filterTags t.segment a2.ticket_type (langOf a2) ++
        ["nearest_office_fallback"], ?_⟩
      simp [List.append_assoc]
    · exact ⟨rfl, filterTags t.segment a2.ticket_type (langOf a2), rfl⟩
  · exact ⟨rfl, filterTags t.segment a2.ticket_type (langOf a2), rfl⟩

theorem mem_sortedOthers {hav : ℚ → ℚ → ℚ → ℚ → ℚ} {fb : Office} {tids : List Int}
    {offices : List Office} {o : Office} :
    o ∈ sortedOthers hav fb tids offices ↔
      o ∈ offices ∧ tids.contains o.id = false := by
  by_cases hfb : (officeCoords fb).isSome = true
  · rw [sortedOthers, if_pos hfb, List.mem_insertionSort, List.mem_filter]
    simp [Bool.not_eq_true']
  · rw [sortedOthers, if_neg hfb, List.mem_filter]
    simp [Bool.not_eq_true']

theorem sortedOthers_sorted (hav : ℚ → ℚ → ℚ → ℚ → ℚ) {fb : Office} (tids : List Int)
    (offices : List Office) (hfb : (officeCoords fb).isSome = true) :
    List.Sorted (distLe hav (officeCoords fb)) (sortedOthers hav fb tids offices) := by
  rw [sortedOthers, if_pos hfb]
  exact List.sorted_insertionSort _ _

theorem dKey_fbc_none {hav : ℚ → ℚ → ℚ → ℚ → ℚ} {o : Office} :
    dKey hav none o = none := rfl

theorem qltB_self (a : Option ℚ) : qltB a a = false := by
  rw [qltB, qleB_refl]; rfl

/-! Claim theorems. -/

/-- C1: whenever `assign_ticket` returns a manager (round-robin or cross-office
fallback), that manager satisfies every hard filter whose guard holds for the
ticket: VIP/Priority segment requires the `VIP` skill, ticket type
"Смена данных" requires position "Главный специалист", and language KZ (resp.
ENG) requires the `KZ` (resp. `ENG`) skill. -/
theorem C1_assigned_manager_satisfies_hard_filters
    (hav : ℚ → ℚ → ℚ → ℚ → ℚ) (t : Ticket) (a : Analysis) (offices : List Office)
    (managers : List Manager) (rr : Option Nat) (res : AssignOut) (mgr : Manager)
    (hok : assignTicket hav t a offices managers rr = .ok res)
    (hmgr : res.manager = some mgr) :
    ((t.segment = some "VIP" ∨ t.segment = some "Priority") →
      skillHas mgr.skills "VIP" = true) ∧
    (a.ticket_type = some "Смена данных" → mgr.position = some "Главный специалист") ∧
    (a.language = some "KZ" → skillHas mgr.skills "KZ" = true) ∧
    (a.language = some "ENG" → skillHas mgr.skills "ENG" = true) := by
  obtain ⟨ch, pool, hbump, hmem⟩ := assign_manager_filtered hok hmgr
  obtain ⟨_, h1, h2, h3, h4⟩ := mem_hardFilters hmem
  subst hbump
  refine ⟨fun h => ?_, fun h => ?_, fun h => ?_, fun h => ?_⟩
  · rw [bumpM_skills]; exact h1 h
  · rw [bumpM_position]; exact h2 h
  · rw [bumpM_skills]; exact h3 (by rw [langOf, h]; rfl)
  · rw [bumpM_skills]; exact h4 (by rw [langOf, h]; rfl)

/-- C1 witness: a KZ-language ticket concretely assigned to the KZ-skilled
manager via round-robin. -/
theorem C1_assigned_manager_satisfies_hard_filters_witness :
    (assignTicket hav0 tMass aKZ [oAlm] [mgrKZ] (some 0) = .ok c1out ∧
      c1out.manager = some (bumpM mgrKZ) ∧ aKZ.language = some "KZ") ∧
    skillHas (bumpM mgrKZ).skills "KZ" = true :=
  ⟨⟨by decide, by decide, by decide⟩,
    (C1_assigned_manager_satisfies_hard_filters hav0 tMass aKZ [oAlm] [mgrKZ] (some 0)
      c1out (bumpM mgrKZ) (by decide) (by decide)).2.2.1 (by decide)⟩

/-- C2: a ticket classified "Спам" yields `(none, none)` with strategy tag
`spam_filter`; the counter row is untouched (not even the initialise-on-read
effect happens, since the counter is never read), the manager list is
returned unchanged, and the analysis dict is not modified. -/
theorem C2_spam_never_assigned
    (hav : ℚ → ℚ → ℚ → ℚ → ℚ) (t : Ticket) (a : Analysis) (offices : List Office)
    (managers : List Manager) (rr : Option Nat)
    (h : a.ticket_type = some "Спам") :
    assignTicket hav t a offices managers rr =
      .ok { manager := none, office := none, reason := spamReason,
            managers := managers, rrState := rr, analysis := a } :=
  assignTicket_spam h

/-- C2 witness: concrete spam ticket with an absent counter row. -/
theorem C2_spam_never_assigned_witness :
    (aSpam.ticket_type = some "Спам") ∧
    assignTicket hav0 tMass aSpam [oAlm] [mgrA, mgrB] none =
      .ok { manager := none, office := none, reason := spamReason,
            managers := [mgrA, mgrB], rrState := none, analysis := aSpam } :=
  ⟨by decide, C2_spam_never_assigned hav0 tMass aSpam [oAlm] [mgrA, mgrB] none (by decide)⟩

/-- C4 counterexample: two eligible candidates `A` (id 1) and `B` (id 2) with
equal workload 0 and no other active filters; four consecutive assignments
under counter values 0,1,2,3 choose managers with ids [1, 1, 2, 1], not the
claimed alternation [1, 2, 1, 2] (after the first call A's workload is 1, so
the stable sort puts B first and `counter % 2 = 1` selects A again). -/
theorem C4_counterexample :
    runSeq hav0 tMass aRU [oAlm] 4 [mgrA, mgrB] (some 0) = [1, 1, 2, 1] ∧
    ([1, 1, 2, 1] : List Int) ≠ [1, 2, 1, 2] := by
  exact ⟨by decide, by decide⟩

/-- C4 amended: in the scenario of the claim (two eligible candidates with
equal initial workload, no other active filters, counter starting at 0),
the four consecutive assignments choose A, A, B, A — the counter-indexed
pick interacts with the workload re-sort, so strict alternation does not
occur. -/
theorem C4_round_robin_sequence_amended :
    runSeq hav0 tMass aRU [oAlm] 4 [mgrA, mgrB] (some 0) = [1, 1, 2, 1] := by
  decide

/-- C5 counterexample: a ticket with segment VIP whose classification says
"Спам" is short-circuited before the VIP override, so its priority score
stays 5 instead of being forced to 10. -/
theorem C5_counterexample :
    (assignTicket hav0 tVIPa aSpam [oAlm] [mgrA] (some 0)).toOption.map
        (fun r => r.analysis.priority_score) = some (some 5) ∧
    (some (5 : Int) : Option Int) ≠ some 10 := by
  exact ⟨by decide, by decide⟩

/-- C5 amended: for every NON-SPAM ticket whose segment is VIP or Priority,
the classification's priority score is forced to 10, and if the ticket is
assigned the chosen manager's skill set contains `VIP`. (Spam tickets return
before the override, which is the only change the counterexample forces.) -/
theorem C5_vip_priority_forced_amended
    (hav : ℚ → ℚ → ℚ → ℚ → ℚ) (t : Ticket) (a : Analysis) (offices : List Office)
    (managers : List Manager) (rr : Option Nat) (res : AssignOut)
    (hns : ¬ a.ticket_type = some "Спам")
    (hseg : t.segment = some "VIP" ∨ t.segment = some "Priority")
    (hok : assignTicket hav t a offices managers rr = .ok res) :
    res.analysis.priority_score = some 10 ∧
    ∀ mgr, res.manager = some mgr → skillHas mgr.skills "VIP" = true := by
  constructor
  · rw [assign_analysis_eq hns hok, pOverride, if_pos hseg]
  · intro mgr hmgr
    obtain ⟨ch, pool, hbump, hmem⟩ := assign_manager_filtered hok hmgr
    obtain ⟨_, h1, _, _, _⟩ := mem_hardFilters hmem
    subst hbump
    rw [bumpM_skills]
    exact h1 hseg

/-- C5 witness: a concrete non-spam VIP ticket assigned to a VIP-skilled
manager; priority forced to 10. -/
theorem C5_vip_priority_forced_amended_witness :
    (¬ aRU.ticket_type = some "Спам" ∧
      (tVIPa.segment = some "VIP" ∨ tVIPa.segment = some "Priority") ∧
      assignTicket hav0 tVIPa aRU [oAlm] [mgrVIP1] (some 3) = .ok c5out) ∧
    c5out.analysis.priority_score = some 10 :=
  ⟨⟨by decide, Or.inl (by decide), by decide⟩,
    (C5_vip_priority_forced_amended hav0 tVIPa aRU [oAlm] [mgrVIP1] (some 3) c5out
      (by decide) (Or.inl (by decide)) (by decide)).1⟩

/-- C10: for a non-spam VIP/Priority ticket the caller-supplied classification
dict is mutated in place — after the call it equals the input with
`priority_score` set to 10 — so the classification input is not read-only
(the ticket record itself has no mutation channel in the engine). -/
theorem C10_classification_mutated_in_place
    (hav : ℚ → ℚ → ℚ → ℚ → ℚ) (t : Ticket) (a : Analysis) (offices : List Office)
    (managers : List Manager) (rr : Option Nat) (res : AssignOut)
    (hns : ¬ a.ticket_type = some "Спам")
    (hseg : t.segment = some "VIP" ∨ t.segment = some "Priority")
    (hok : assignTicket hav t a offices managers rr = .ok res) :
    res.analysis = { a with priority_score := some 10 } := by
  rw [assign_analysis_eq hns hok, pOverride, if_pos hseg]

/-- C10 witness: concrete VIP ticket whose classification dict comes back with
`priority_score` rewritten to 10. -/
theorem C10_classification_mutated_in_place_witness :
    (¬ aRU.ticket_type = some "Спам" ∧
      (tVIPa.segment = some "VIP" ∨ tVIPa.segment = some "Priority") ∧
      assignTicket hav0 tVIPa aRU [oAlm] [mgrA] (some 0) = .ok c10out) ∧
    c10out.analysis = { aRU with priority_score := some 10 } :=
  ⟨⟨by decide, Or.inl (by decide), by decide⟩,
    C10_classification_mutated_in_place hav0 tVIPa aRU [oAlm] [mgrA] (some 0) c10out
      (by decide) (Or.inl (by decide)) (by decide)⟩

/-- C3: on every non-spam call with a non-empty filtered pool, the pool is
stably sorted ascending by workload (sortedness, permutation and tie
preservation are each asserted), the shortlist is the first two entries, the
chosen manager sits at index `c mod len(shortlist)` for the pre-increment
counter value `c`, the counter value then advances by exactly 1, and only the
chosen manager's workload is incremented (by exactly 1, via `bumpById`); a
1-element shortlist yields its only manager (index `c mod 1 = 0`), and on the
spam path and the empty-pool path the counter value does not advance. -/
theorem C3_round_robin_selection
    (hav : ℚ → ℚ → ℚ → ℚ → ℚ) (t : Ticket) (a : Analysis) (offices : List Office)
    (managers : List Manager) (rr : Option Nat) (res : AssignOut)
    (hok : assignTicket hav t a offices managers rr = .ok res) :
    (a.ticket_type = some "Спам" → rrVal res.rrState = rrVal rr) ∧
    (∀ tids fb r1,
      ¬ a.ticket_type = some "Спам" →
      step1 hav t (pOverride t a) offices initReason = .ok (tids, fb, r1) →
      (hardFilters t.segment a.ticket_type (langOf a) (localCandidates tids managers) = [] →
        rrVal res.rrState = rrVal rr) ∧
      (∀ c0 rest,
        List.insertionSort wle (hardFilters t.segment a.ticket_type (langOf a)
          (localCandidates tids managers)) = c0 :: rest →
        List.Sorted wle (c0 :: rest) ∧
        (c0 :: rest).Perm
          (hardFilters t.segment a.ticket_type (langOf a) (localCandidates tids managers)) ∧
        (∀ w : Int, (c0 :: rest).filter (fun m => m.current_workload == w) =
          (hardFilters t.segment a.ticket_type (langOf a)
            (localCandidates tids managers)).filter (fun m => m.current_workload == w)) ∧
        ∃ chosen,
          ((c0 :: rest).take 2).get? (rrVal rr % ((c0 :: rest).take 2).length) =
            some chosen ∧
          res.manager = some (bumpM chosen) ∧
          res.office = some fb ∧
          res.managers = bumpById managers chosen.id ∧
          rrVal res.rrState = rrVal rr + 1 ∧
          res.reason.chosen_by = "round_robin" ∧
          res.reason.top2_managers = ((c0 :: rest).take 2).map mgrLabel)) := by
  constructor
  · intro hspam
    rw [assignTicket_spam hspam] at hok
    have hres := (Except.ok.inj hok).symm
    rw [hres]
  · intro tids fb r1 hns hstep
    rw [assignTicket_nonspam hns hstep] at hok
    have hres : res = assignCore hav t (pOverride t a) tids fb r1 offices managers
        (getRR rr).1 (getRR rr).2 := (Except.ok.inj hok).symm
    subst hres
    have htt := pOverride_ticket_type t a
    have hlg := langOf_pOverride t a
    constructor
    · intro hempty
      have hsort : List.insertionSort wle
          (hardFilters t.segment (pOverride t a).ticket_type (langOf (pOverride t a))
            (localCandidates tids managers)) = [] := by
        rw [htt, hlg, hempty]; rfl
      rw [assignCore_empty hsort]
      rcases hwalk : fallbackWalk t.segment (pOverride t a).ticket_type
          (langOf (pOverride t a)) managers (sortedOthers hav fb tids offices) with
          _ | ⟨w, ch, pool⟩
      · rw [fallbackCase_walk_none hwalk]
        exact getRR_snd_val rr
      · rw [fallbackCase_walk_some hwalk]
        exact getRR_snd_val rr
    · intro c0 rest hsort0
      have hsort : List.insertionSort wle
          (hardFilters t.segment (pOverride t a).ticket_type (langOf (pOverride t a))
            (localCandidates tids managers)) = c0 :: rest := by
        rw [htt, hlg]; exact hsort0
      refine ⟨?_, ?_, ?_, ?_⟩
      · rw [← hsort0]; exact List.sorted_insertionSort wle _
      · rw [← hsort0]; exact List.perm_insertionSort wle _
      · intro w; rw [← hsort0]; exact insertionSort_filter_workload _ w
      · rw [assignCore_rr hsort rfl, getRR_fst]
        have hlen : rrVal rr % ((c0 :: rest).take 2).length <
            ((c0 :: rest).take 2).length := by
          apply Nat.mod_lt
          simp [List.length_take]
        exact ⟨((c0 :: rest).take 2).getD (rrVal rr % ((c0 :: rest).take 2).length) c0,
          getD_get? c0 hlen, rfl, rfl, rfl,
          by rw [incRR_val, getRR_snd_val], rfl, rfl⟩

/-- C3 witness: two equal-workload candidates, counter 0; the shortlist is
both managers in caller order, index 0 mod 2 selects the first, the counter
advances to 1 and only the chosen manager's workload is bumped. -/
theorem C3_round_robin_selection_witness :
    (assignTicket hav0 tMass aRU [oAlm] [mgrA, mgrB] (some 0) = .ok c3out ∧
      ¬ aRU.ticket_type = some "Спам" ∧
      step1 hav0 tMass (pOverride tMass aRU) [oAlm] initReason =
        .ok ([1], oAlm, c3r1) ∧
      List.insertionSort wle (hardFilters tMass.segment aRU.ticket_type (langOf aRU)
        (localCandidates [1] [mgrA, mgrB])) = mgrA :: [mgrB]) ∧
    rrVal c3out.rrState = rrVal (some 0) + 1 := by
  have h := C3_round_robin_selection hav0 tMass aRU [oAlm] [mgrA, mgrB] (some 0) c3out
    (by decide)
  have h2 := (h.2 [1] oAlm c3r1 (by decide) (by decide)).2 mgrA [mgrB] (by decide)
  obtain ⟨-, -, -, chosen, -, -, -, -, hcnt, -, -⟩ := h2
  exact ⟨⟨by decide, by decide, by decide, by decide⟩, hcnt⟩

/-- C9: when the local filtered pool is empty and no other office yields an
eligible manager either, `assign_ticket` returns no manager, the originally
resolved office, and an explanation tagged `unassigned`; the manager list is
returned unchanged and the counter value does not advance. -/
theorem C9_unassigned_outcome
    (hav : ℚ → ℚ → ℚ → ℚ → ℚ) (t : Ticket) (a : Analysis) (offices : List Office)
    (managers : List Manager) (rr : Option Nat) (tids : List Int) (fb : Office)
    (r1 : Reason)
    (hns : ¬ a.ticket_type = some "Спам")
    (hstep : step1 hav t (pOverride t a) offices initReason = .ok (tids, fb, r1))
    (hloc : hardFilters t.segment a.ticket_type (langOf a) (localCandidates tids managers) = [])
    (hall : ∀ o ∈ offices, tids.contains o.id = false →
      hardFilters t.segment a.ticket_type (langOf a) (officePool o managers) = []) :
    ∃ res, assignTicket hav t a offices managers rr = .ok res ∧
      res.manager = none ∧
      res.office = some fb ∧
      res.reason.chosen_by = "unassigned" ∧
      res.reason.chosen_reason = "No qualified manager found at any office" ∧
      res.managers = managers ∧
      rrVal res.rrState = rrVal rr := by
  have htt := pOverride_ticket_type t a
  have hlg := langOf_pOverride t a
  have hsort : List.insertionSort wle
      (hardFilters t.segment (pOverride t a).ticket_type (langOf (pOverride t a))
        (localCandidates tids managers)) = [] := by
    rw [htt, hlg, hloc]; rfl
  have hwalk : fallbackWalk t.segment (pOverride t a).ticket_type (langOf (pOverride t a))
      managers (sortedOthers hav fb tids offices) = none := by
    apply fallbackWalk_eq_none
    intro o ho
    obtain ⟨ho1, ho2⟩ := mem_sortedOthers.mp ho
    rw [htt, hlg]
    exact hall o ho1 ho2
  refine ⟨_, assignTicket_nonspam hns hstep, ?_⟩
  rw [assignCore_empty hsort, fallbackCase_walk_none hwalk]
  exact ⟨rfl, rfl, rfl, rfl, rfl, getRR_snd_val rr⟩

/-- C9 witness: a VIP ticket at an office whose only manager lacks the VIP
skill, with no other office in the system. -/
theorem C9_unassigned_outcome_witness :
    (¬ aRU.ticket_type = some "Спам" ∧
      step1 hav0 tVIPt (pOverride tVIPt aRU) [oTown] initReason =
        .ok ([1], oTown, cTownR1) ∧
      hardFilters tVIPt.segment aRU.ticket_type (langOf aRU)
        (localCandidates [1] [mgrA]) = [] ∧
      (∀ o ∈ [oTown], List.contains [(1 : Int)] o.id = false →
        hardFilters tVIPt.segment aRU.ticket_type (langOf aRU)
          (officePool o [mgrA]) = [])) ∧
    c9out.manager = none ∧ rrVal c9out.rrState = rrVal (some 2) := by
  have h := C9_unassigned_outcome hav0 tVIPt aRU [oTown] [mgrA] (some 2) [1] oTown
    cTownR1 (by decide) (by decide) (by decide) (by decide)
  obtain ⟨res, hok, hm, -, -, -, -, hcnt⟩ := h
  have hres : res = c9out := by
    have h2 : (Except.ok res : Except String AssignOut) = .ok c9out := by
      rw [← hok]; decide
    exact Except.ok.inj h2
  subst hres
  exact ⟨⟨by decide, by decide, by decide, by decide⟩, hm, hcnt⟩

/-- C8: on a non-spam call whose local filtered pool is empty and which does
assign a manager, the winning office lies outside the target set, its pool is
filtered by the identical eligibility rules, the chosen manager is the head of
the stable workload sort of that pool (single deterministic pick, minimal
workload), no strictly closer walkable office (w.r.t. the distance key from the
resolved office, unresolvable coordinates ranking last) has an eligible
manager, only the chosen manager's workload is bumped, the counter value does
not advance, and the explanation carries strategy `nearest_qualified` with the
distance and office name embedded in the reason string. -/
theorem C8_nearest_qualified_fallback
    (hav : ℚ → ℚ → ℚ → ℚ → ℚ) (t : Ticket) (a : Analysis) (offices : List Office)
    (managers : List Manager) (rr : Option Nat) (tids : List Int) (fb : Office)
    (r1 : Reason) (res : AssignOut)
    (hns : ¬ a.ticket_type = some "Спам")
    (hstep : step1 hav t (pOverride t a) offices initReason = .ok (tids, fb, r1))
    (hloc : hardFilters t.segment a.ticket_type (langOf a) (localCandidates tids managers) = [])
    (hok : assignTicket hav t a offices managers rr = .ok res)
    (hsome : res.manager ≠ none) :
    ∃ w chosen,
      res.office = some w ∧
      res.manager = some (bumpM chosen) ∧
      w ∈ offices ∧
      tids.contains w.id = false ∧
      chosen ∈ hardFilters t.segment a.ticket_type (langOf a) (officePool w managers) ∧
      (∀ m ∈ hardFilters t.segment a.ticket_type (langOf a) (officePool w managers),
        chosen.current_workload ≤ m.current_workload) ∧
      (List.insertionSort wle (hardFilters t.segment a.ticket_type (langOf a)
        (officePool w managers))).head? = some chosen ∧
      (∀ o ∈ offices, tids.contains o.id = false →
        qltB (dKey hav (officeCoords fb) o) (dKey hav (officeCoords fb) w) = true →
        hardFilters t.segment a.ticket_type (langOf a) (officePool o managers) = []) ∧
      res.managers = bumpById managers chosen.id ∧
      rrVal res.rrState = rrVal rr ∧
      res.reason.chosen_by = "nearest_qualified" ∧
      "nearest_office_fallback" ∈ res.reason.filters_applied ∧
      res.reason.chosen_reason = nqReasonStr fb chosen w (distTo hav fb w) := by
  have htt := pOverride_ticket_type t a
  have hlg := langOf_pOverride t a
  have hsort : List.insertionSort wle
      (hardFilters t.segment (pOverride t a).ticket_type (langOf (pOverride t a))
        (localCandidates tids managers)) = [] := by
    rw [htt, hlg, hloc]; rfl
  rw [assignTicket_nonspam hns hstep] at hok
  have hres : res = assignCore hav t (pOverride t a) tids fb r1 offices managers
      (getRR rr).1 (getRR rr).2 := (Except.ok.inj hok).symm
  subst hres
  rcases hwalk : fallbackWalk t.segment (pOverride t a).ticket_type
      (langOf (pOverride t a)) managers (sortedOthers hav fb tids offices) with
      _ | ⟨w, ch, pool⟩
  · rw [assignCore_empty hsort, fallbackCase_walk_none hwalk] at hsome
    exact absurd rfl hsome
  · obtain ⟨l1, l2, hsplit, hprefix, hpool, hpne, hhead⟩ := fallbackWalk_eq_some hwalk
    rcases hsp : List.insertionSort wle pool with _ | ⟨ch2, rest2⟩
    · rw [hsp] at hhead; cases hhead
    · rw [hsp] at hhead
      have hch2 : ch2 = ch := Option.some.inj hhead
      have hmin := sort_head_min hsp
      rw [hch2] at hmin
      have hwmem : w ∈ sortedOthers hav fb tids offices := by
        rw [hsplit]
        exact List.mem_append_right _ (List.mem_cons_self _ _)
      obtain ⟨hw1, hw2⟩ := mem_sortedOthers.mp hwmem
      have hpool2 : pool =
          hardFilters t.segment a.ticket_type (langOf a) (officePool w managers) := by
        rw [← htt, ← hlg]; exact hpool
      have hclose : ∀ o ∈ offices, tids.contains o.id = false →
          qltB (dKey hav (officeCoords fb) o) (dKey hav (officeCoords fb) w) = true →
          hardFilters t.segment a.ticket_type (langOf a) (officePool o managers) = [] := by
        intro o ho hoc hqlt
        have homem : o ∈ sortedOthers hav fb tids offices := mem_sortedOthers.mpr ⟨ho, hoc⟩
        rw [hsplit] at homem
        rcases List.mem_append.mp homem with h1 | h2
        · rw [← htt, ← hlg]; exact hprefix o h1
        · rcases List.mem_cons.mp h2 with heq | h3
          · rw [heq, qltB_self] at hqlt; cases hqlt
          · by_cases hfb : (officeCoords fb).isSome = true
            · have hsorted := sortedOthers_sorted hav tids offices hfb
              rw [hsplit] at hsorted
              have hpw := (List.pairwise_append.mp hsorted).2.1
              have hrel : distLe hav (officeCoords fb) w o :=
                (List.pairwise_cons.mp hpw).1 o h3
              rw [distLe] at hrel
              rw [qltB, hrel] at hqlt
              cases hqlt
            · have hnone : officeCoords fb = none := by
                cases hoc2 : officeCoords fb
                · rfl
                · exact absurd (by rw [hoc2]; rfl) hfb
              rw [hnone, dKey_fbc_none, dKey_fbc_none, qltB_self] at hqlt
              cases hqlt
      rw [assignCore_empty hsort, fallbackCase_walk_some hwalk]
      refine ⟨w, ch, rfl, rfl, hw1, hw2, ?_, ?_, ?_, hclose, rfl, getRR_snd_val rr,
        rfl, ?_, rfl⟩
      · rw [← hpool2]; exact hmin.1
      · rw [← hpool2]; exact hmin.2
      · rw [← hpool2, hsp]; rw [hch2]; rfl
      · simp

/-- C8 witness: a VIP ticket resolved to an office with no VIP manager; the
only other office holds one, so it wins with strategy `nearest_qualified`
and the counter value stays put. -/
theorem C8_nearest_qualified_fallback_witness :
    (¬ aRU.ticket_type = some "Спам" ∧
      step1 hav0 tVIPt (pOverride tVIPt aRU) [oTown, oOther] initReason =
        .ok ([1], oTown, cTownR1) ∧
      hardFilters tVIPt.segment aRU.ticket_type (langOf aRU)
        (localCandidates [1] [mgrA, mgrVIP]) = [] ∧
      assignTicket hav0 tVIPt aRU [oTown, oOther] [mgrA, mgrVIP] (some 5) = .ok c8out ∧
      c8out.manager ≠ none) ∧
    c8out.reason.chosen_by = "nearest_qualified" ∧
    rrVal c8out.rrState = rrVal (some 5) := by
  have h := C8_nearest_qualified_fallback hav0 tVIPt aRU [oTown, oOther] [mgrA, mgrVIP]
    (some 5) [1] oTown cTownR1 c8out (by decide) (by decide) (by decide) (by decide)
    (by decide)
  obtain ⟨w, chosen, -, -, -, -, -, -, -, -, -, hcnt, hcb, -, -⟩ := h
  exact ⟨⟨by decide, by decide, by decide, by decide, by decide⟩, hcb, hcnt⟩

/-- C6 counterexample: a classification carrying coordinates, a ticket with no
city, and an office list in which no office has resolvable coordinates make
`find_nearest_office` return `None`, and `nearest.id` raises AttributeError —
so `assign_ticket` does not return normally on every input. -/
theorem C6_counterexample :
    assignTicket hav0 tNoLoc aGeo [oTown] [mgrA] (some 0) = .error "AttributeError" := by
  decide

/-- C6 amended: `assign_ticket` raises no exception provided the office list
is non-empty and — when the classification carries coordinates and no
city-name match fires — at least one office has resolvable coordinates; and
on a non-spam call where no city match, no coordinates and no region match
apply, it degrades deterministically to the office named "Астана" when
present, otherwise the first office of the supplied list, with filter tag
`no_location_default`. -/
theorem C6_no_raise_amended
    (hav : ℚ → ℚ → ℚ → ℚ → ℚ) (t : Ticket) (a : Analysis) (o0 : Office)
    (rest : List Office) (managers : List Manager) (rr : Option Nat)
    (hcoords : a.latitude ≠ none → a.longitude ≠ none →
      cityMatch (t.city.getD "") (o0 :: rest) = none →
      ∃ o ∈ o0 :: rest, (officeCoords o).isSome = true) :
    ∃ res, assignTicket hav t a (o0 :: rest) managers rr = .ok res ∧
      (¬ a.ticket_type = some "Спам" →
        cityMatch (t.city.getD "") (o0 :: rest) = none →
        (a.latitude = none ∨ a.longitude = none) →
        findOfficeByRegion (t.region.getD "") (o0 :: rest) = none →
        res.reason.nearest_office =
          some (((o0 :: rest).find? (fun o => o.name == "Астана")).getD o0).name ∧
        "no_location_default" ∈ res.reason.filters_applied) := by
  by_cases hspam : a.ticket_type = some "Спам"
  · exact ⟨_, assignTicket_spam hspam, fun hns _ _ _ => absurd hspam hns⟩
  · rcases hc : cityMatch (t.city.getD "") (o0 :: rest) with _ | cm
    · by_cases hll : a.latitude = none ∨ a.longitude = none
      · have hll2 : (pOverride t a).latitude = none ∨ (pOverride t a).longitude = none := by
          rw [pOverride_latitude, pOverride_longitude]; exact hll
        rcases hr : findOfficeByRegion (t.region.getD "") (o0 :: rest) with _ | rm
        · have hstep := step1_default hav (pOverride t a) initReason hc hll2 hr
          refine ⟨_, assignTicket_nonspam hspam hstep, fun _ _ _ _ => ?_⟩
          constructor
          · exact assignCore_reason.1
          · obtain ⟨suf, hfilt⟩ := assignCore_reason.2
            rw [hfilt]
            simp [initReason]
        · have hstep := step1_region hav (pOverride t a) initReason hc hll2 hr
          exact ⟨_, assignTicket_nonspam hspam hstep,
            fun _ _ _ hreg => Option.noConfusion hreg⟩
      · have hla : a.latitude ≠ none := fun h => hll (Or.inl h)
        have hlo : a.longitude ≠ none := fun h => hll (Or.inr h)
        rcases hla2 : a.latitude with _ | la
        · exact absurd hla2 hla
        rcases hlo2 : a.longitude with _ | lo
        · exact absurd hlo2 hlo
        have hex := hcoords hla hlo hc
        have hnn := findNearest_isSome hav la lo hex
        rcases hfn : findNearest hav la lo (o0 :: rest) with ⟨ono, d⟩
        rcases ono with _ | nr
        · rw [hfn] at hnn; simp at hnn
        · have hstep := step1_geo hav (pOverride t a) initReason hc
            (by rw [pOverride_latitude]; exact hla2)
            (by rw [pOverride_longitude]; exact hlo2) hfn
          refine ⟨_, assignTicket_nonspam hspam hstep, fun _ _ hll2 _ => ?_⟩
          rcases hll2 with h | h <;> exact Option.noConfusion h
    · have hstep := step1_city hav (pOverride t a) initReason hc
      exact ⟨_, assignTicket_nonspam hspam hstep,
        fun _ hcity _ _ => Option.noConfusion hcity⟩

/-- C6 witness: no location information at all and an office list without
"Астана": the call succeeds and degrades to the first office. -/
theorem C6_no_raise_amended_witness :
    (aRU.latitude ≠ none → aRU.longitude ≠ none →
      cityMatch (tNoLoc.city.getD "") [oTown] = none →
      ∃ o ∈ [oTown], (officeCoords o).isSome = true) ∧
    c6out.reason.nearest_office = some "Городок" ∧
    "no_location_default" ∈ c6out.reason.filters_applied := by
  have h := C6_no_raise_amended hav0 tNoLoc aRU oTown [] [] (some 0) (by decide)
  obtain ⟨res, hok, hdeg⟩ := h
  have hres : res = c6out := Except.ok.inj (by rw [← hok]; decide)
  subst hres
  have h2 := hdeg (by decide) (by decide) (Or.inl (by decide)) (by decide)
  exact ⟨by decide, h2.1.trans (by decide), h2.2⟩

theorem isPrefixOf_self (l : List Char) : l.isPrefixOf l = true := by
  induction l with
  | nil => rfl
  | cons c t ih => simp [List.isPrefixOf, ih]

theorem pyIn_refl (s : String) : pyIn s s = true := by
  rw [pyIn]
  cases h : s.data with
  | nil => rfl
  | cons c t =>
    rw [listContains]
    rw [isPrefixOf_self]
    rfl

theorem lookup_eq_some_mem {l : List (String × String)} {k v : String}
    (h : List.lookup k l = some v) : (k, v) ∈ l := by
  induction l with
  | nil => cases h
  | cons p t ih =>
    rcases p with ⟨k2, v2⟩
    rw [List.lookup] at h
    by_cases hk : k == k2
    · rw [hk] at h
      have hv : v2 = v := Option.some.inj h
      have hk2 : k = k2 := beq_iff_eq.mp hk
      rw [hk2, hv]
      exact List.mem_cons_self _ _
    · rw [Bool.not_eq_true] at hk
      rw [hk] at h
      exact List.mem_cons_of_mem _ (ih h)

theorem regionScan_sound {rl : String} {offices : List Office}
    {l : List (String × String)} {o : Office}
    (h : regionScan rl offices l = some o) :
    o ∈ offices ∧ ∃ p ∈ l, o.name = p.2 ∧ (pyIn p.1 rl || pyIn rl p.1) = true := by
  induction l with
  | nil => cases h
  | cons p t ih =>
    rcases p with ⟨k, tgt⟩
    rw [regionScan] at h
    by_cases hm : (pyIn k rl || pyIn rl k) = true
    · rw [if_pos hm] at h
      cases hf : offices.find? (fun o2 => o2.name == tgt) with
      | none =>
        rw [hf] at h
        obtain ⟨h1, p2, hp2, h3⟩ := ih h
        exact ⟨h1, p2, List.mem_cons_of_mem _ hp2, h3⟩
      | some o2 =>
        rw [hf] at h
        have ho2 : o2 = o := Option.some.inj h
        subst ho2
        refine ⟨List.mem_of_find?_eq_some hf, (k, tgt), List.mem_cons_self _ _, ?_, hm⟩
        have hname := List.find?_some hf
        exact beq_iff_eq.mp hname
    · rw [if_neg hm] at h
      obtain ⟨h1, p2, hp2, h3⟩ := ih h
      exact ⟨h1, p2, List.mem_cons_of_mem _ hp2, h3⟩

theorem regionScan_none {rl : String} {offices : List Office}
    {l : List (String × String)}
    (h : ∀ p ∈ l, (pyIn p.1 rl || pyIn rl p.1) = true →
      offices.find? (fun o => o.name == p.2) = none) :
    regionScan rl offices l = none := by
  induction l with
  | nil => rfl
  | cons p t ih =>
    rcases p with ⟨k, tgt⟩
    rw [regionScan]
    by_cases hm : (pyIn k rl || pyIn rl k) = true
    · rw [if_pos hm]
      have hf := h (k, tgt) (List.mem_cons_self _ _) hm
      rw [hf]
      exact ih fun p hp hc => h p (List.mem_cons_of_mem _ hp) hc
    · rw [if_neg hm]
      exact ih fun p hp hc => h p (List.mem_cons_of_mem _ hp) hc

set_option maxRecDepth 10000 in
/-- All alias-table entries related by containment in either direction map to
the same office name (checked exhaustively over the 32 × 32 key pairs). -/
theorem tableCoherent : ∀ p ∈ REGION_TO_OFFICE, ∀ q ∈ REGION_TO_OFFICE,
    (pyIn q.1 p.1 || pyIn p.1 q.1) = true → q.2 = p.2 := by decide

/-- C7: the region resolver lowercases and strips the input and attempts an
exact alias-table lookup first — an exact hit whose target office exists in
the supplied list is returned directly (no scan involved); the bidirectional
substring scan is what the result reduces to when no exact key matches; an
exact hit whose target office is absent also yields none (no other office can
be produced, because every alias related to the matched key by containment
maps to the same target, exhaustively checked); more generally the resolver
returns none whenever every matching alias has no office with its target name
in the supplied list, and any office returned belongs to the list and is
named by a matching alias's target. -/
theorem C7_region_resolver (region : String) (offices : List Office) :
    (∀ t o, region ≠ "" →
      REGION_TO_OFFICE.lookup (pyStrip (pyLower region)) = some t →
      offices.find? (fun o2 => o2.name == t) = some o →
      findOfficeByRegion region offices = some o) ∧
    (∀ t, region ≠ "" →
      REGION_TO_OFFICE.lookup (pyStrip (pyLower region)) = some t →
      offices.find? (fun o2 => o2.name == t) = none →
      findOfficeByRegion region offices = none) ∧
    (region ≠ "" →
      REGION_TO_OFFICE.lookup (pyStrip (pyLower region)) = none →
      findOfficeByRegion region offices =
        regionScan (pyStrip (pyLower region)) offices REGION_TO_OFFICE) ∧
    ((∀ p ∈ REGION_TO_OFFICE,
        (pyIn p.1 (pyStrip (pyLower region)) || pyIn (pyStrip (pyLower region)) p.1) = true →
        offices.find? (fun o => o.name == p.2) = none) →
      findOfficeByRegion region offices = none) ∧
    (∀ o, findOfficeByRegion region offices = some o →
      o ∈ offices ∧ ∃ p ∈ REGION_TO_OFFICE, o.name = p.2 ∧
        (pyIn p.1 (pyStrip (pyLower region)) || pyIn (pyStrip (pyLower region)) p.1) = true) := by
  refine ⟨?_, ?_, ?_, ?_, ?_⟩
  · intro t o hne hl hf
    rw [findOfficeByRegion, if_neg hne]
    simp only [hl, hf]
  · intro t hne hl hf
    rw [findOfficeByRegion, if_neg hne]
    simp only [hl, hf]
    apply regionScan_none
    intro p hp hc
    have hmem := lookup_eq_some_mem hl
    have heq : p.2 = t := tableCoherent (pyStrip (pyLower region), t) hmem p hp hc
    rw [heq]
    exact hf
  · intro hne hl
    rw [findOfficeByRegion, if_neg hne]
    simp only [hl]
  · intro h
    by_cases hne : region = ""
    · rw [findOfficeByRegion, if_pos hne]
    · rw [findOfficeByRegion, if_neg hne]
      cases hl : REGION_TO_OFFICE.lookup (pyStrip (pyLower region)) with
      | none =>
        simp only [hl]
        exact regionScan_none h
      | some t =>
        simp only [hl]
        have hmem := lookup_eq_some_mem hl
        have hself : (pyIn (pyStrip (pyLower region), t).1 (pyStrip (pyLower region)) ||
            pyIn (pyStrip (pyLower region)) (pyStrip (pyLower region), t).1) = true := by
          rw [pyIn_refl]
          rfl
        have hf := h _ hmem hself
        simp only [hf]
        exact regionScan_none h
  · intro o ho
    by_cases hne : region = ""
    · rw [findOfficeByRegion, if_pos hne] at ho
      cases ho
    · rw [findOfficeByRegion, if_neg hne] at ho
      cases hl : REGION_TO_OFFICE.lookup (pyStrip (pyLower region)) with
      | none =>
        simp only [hl] at ho
        exact regionScan_sound ho
      | some t =>
        simp only [hl] at ho
        cases hf : offices.find? (fun o2 => o2.name == t) with
        | none =>
          rw [hf] at ho
          exact regionScan_sound ho
        | some o2 =>
          rw [hf] at ho
          have ho2 : o2 = o := Option.some.inj ho
          subst ho2
          have hmem := lookup_eq_some_mem hl
          have hname := List.find?_some hf
          refine ⟨List.mem_of_find?_eq_some hf, (pyStrip (pyLower region), t), hmem,
            beq_iff_eq.mp hname, ?_⟩
          rw [pyIn_refl]
          rfl

/-- C7 witness: the legacy alias "ВКО" (lowercased and stripped from
"  ВКО ") resolves exactly to office "Усть-Каменогорск" present in the
supplied list. -/
theorem C7_region_resolver_witness :
    (("  ВКО " : String) ≠ "" ∧
      REGION_TO_OFFICE.lookup (pyStrip (pyLower "  ВКО ")) = some "Усть-Каменогорск" ∧
      List.find? (fun o2 => o2.name == "Усть-Каменогорск") [oUKam] = some oUKam) ∧
    findOfficeByRegion "  ВКО " [oUKam] = some oUKam :=
  ⟨⟨by decide, by decide, by decide⟩,
    (C7_region_resolver "  ВКО " [oUKam]).1 "Усть-Каменогорск" oUKam
      (by decide) (by decide) (by decide)⟩
